import Mathlib

/-!
Verification of the peer-calls room fan-out / signaling core.

Sections:
* `Wsmessage` — the message envelope and its JSON codec.
* `Signals`   — the Signaller: close latch, inbound-signal dispatch,
  remote-offer handling, constructor initialization, transceiver requests.
* `Wshandler` — the websocket room handler: URL parsing (Go `path.Base` /
  `path.Dir`) and the teardown/effect trace of `HandleRoomWithCleanup`.
-/

namespace Wsmessage

/-- A JSON value; payloads of messages are arbitrary JSON trees.
Numbers are modelled as integers (the payloads exercised by this
development use none). -/
inductive Json where
  | null : Json
  | bool (b : Bool) : Json
  | num (n : Int) : Json
  | str (s : String) : Json
  | arr (elems : List Json) : Json
  | obj (fields : List (String × Json)) : Json
  deriving Repr

/-- The on-wire envelope `{type, room, payload}` (`wsmessage.Message`). -/
structure Message where
  type_ : String
  room : String
  payload : Json
  deriving Repr

def MessageTypeRoomJoin : String := "ws_room_join"

def MessageTypeRoomLeave : String := "ws_room_leave"

/-- `wsmessage.NewMessage`. -/
def NewMessage (typ room : String) (payload : Json) : Message :=
  ⟨typ, room, payload⟩

/-- `wsmessage.NewMessageRoomJoin`: payload `{clientID, metadata}`. -/
def NewMessageRoomJoin (room clientID metadata : String) : Message :=
  ⟨MessageTypeRoomJoin, room, .obj [("clientID", .str clientID), ("metadata", .str metadata)]⟩

/-- `wsmessage.NewMessageRoomLeave`: payload is the client id string. -/
def NewMessageRoomLeave (room clientID : String) : Message :=
  ⟨MessageTypeRoomLeave, room, .str clientID⟩

/-- Modelled from the spec: `wsmessage.ByteSerializer.Serialize` is not under
`src/` (only its tests are). The spec fixes the frame format to the UTF-8
JSON document `{"type": ..., "room": ..., "payload": ...}`; we model the
codec at the level of that JSON document. -/
def Serialize (m : Message) : Json :=
  .obj [("type", .str m.type_), ("room", .str m.room), ("payload", m.payload)]

/-- First field of the object bound to key `k` (JSON-object field lookup). -/
def getField (k : String) : List (String × Json) → Option Json
  | [] => none
  | (k2, v) :: rest => if k2 = k then some v else getField k rest

/-- Modelled from the spec: `wsmessage.ByteSerializer.Deserialize` is not
under `src/`. A frame must be a JSON object; the `type` and `room` fields
must be strings when present (absent fields default to the empty string, a
missing payload to `null`); anything else is a `malformed` error. -/
def Deserialize (j : Json) : Except String Message :=
  match j with
  | .obj fields =>
    let t : Except String String :=
      match getField "type" fields with
      | none => .ok ""
      | some (.str s) => .ok s
      | some _ => .error "malformed"
    let r : Except String String :=
      match getField "room" fields with
      | none => .ok ""
      | some (.str s) => .ok s
      | some _ => .error "malformed"
    match t, r with
    | .ok t, .ok r =>
      .ok ⟨t, r, (getField "payload" fields).getD .null⟩
    | .error e, _ => .error e
    | _, .error e => .error e
  | _ => .error "malformed"

end Wsmessage

namespace Signals

/-- `webrtc.RTPCodecType` as used by the signaller. -/
inductive CodecType where
  | video : CodecType
  | audio : CodecType
  deriving Repr, DecidableEq

/-- `webrtc.RTPTransceiverDirection` values the signaller uses. -/
inductive TransceiverDirection where
  | sendrecv : TransceiverDirection
  | sendonly : TransceiverDirection
  | recvonly : TransceiverDirection
  | inactive : TransceiverDirection
  deriving Repr, DecidableEq

/-- `webrtc.SDPType`. -/
inductive SDPType where
  | offer : SDPType
  | pranswer : SDPType
  | answer : SDPType
  | rollback : SDPType
  deriving Repr, DecidableEq

/-- `webrtc.SessionDescription`: an SDP type together with the SDP text. -/
structure SessionDescription where
  sdpType : SDPType
  sdp : String
  deriving Repr, DecidableEq

/-- `webrtc.ICECandidateInit`, kept opaque (its `candidate` string). -/
structure ICECandidateInit where
  candidate : String
  deriving Repr, DecidableEq

/-- `webrtc.ICEConnectionState`. -/
inductive ICEConnectionState where
  | new : ICEConnectionState
  | checking : ICEConnectionState
  | connected : ICEConnectionState
  | completed : ICEConnectionState
  | disconnected : ICEConnectionState
  | failed : ICEConnectionState
  | closed : ICEConnectionState
  deriving Repr, DecidableEq

/-- Outbound payloads the signaller hands to `onSignal`
(`NewPayloadSDP`, `NewPayloadRenegotiate`, `NewTransceiverRequest`). -/
inductive OutPayload where
  | sdp (userID : String) (sd : SessionDescription) : OutPayload
  | renegotiate (userID : String) : OutPayload
  | transceiverRequest (userID : String) (kind : CodecType)
      (direction : TransceiverDirection) : OutPayload
  deriving Repr, DecidableEq

/-- One observable call the signaller makes on its collaborators (the peer
connection, the media engine, the negotiator, or the `onSignal` callback). -/
inductive SigAction where
  | registerDefaultCodecs : SigAction
  | addTransceiverFromKind (kind : CodecType) (direction : TransceiverDirection) : SigAction
  | negotiate : SigAction
  | negotiatorAddTransceiverFromKind (kind : CodecType)
      (direction : TransceiverDirection) : SigAction
  | addICECandidate (c : ICECandidateInit) : SigAction
  | populateFromSDP (sd : SessionDescription) : SigAction
  | setRemoteDescription (sd : SessionDescription) : SigAction
  | createAnswer : SigAction
  | setLocalDescription (sd : SessionDescription) : SigAction
  | onSignal (p : OutPayload) : SigAction
  deriving Repr, DecidableEq

/-- The responses of the peer connection / media engine to the fallible
calls the signaller makes (the abstract `PeerConnection` capability set of
the source, as a pure behaviour). -/
structure PeerBehavior where
  addTransceiverFromKind : CodecType → TransceiverDirection → Except String Unit
  addICECandidate : ICECandidateInit → Except String Unit
  setRemoteDescription : SessionDescription → Except String Unit
  setLocalDescription : SessionDescription → Except String Unit
  createAnswer : Except String SessionDescription
  populateFromSDP : SessionDescription → Except String Unit

/-- A peer connection on which every call succeeds; `CreateAnswer` yields a
fixed answer description. -/
def pbOk : PeerBehavior where
  addTransceiverFromKind := fun _ _ => .ok ()
  addICECandidate := fun _ => .ok ()
  setRemoteDescription := fun _ => .ok ()
  setLocalDescription := fun _ => .ok ()
  createAnswer := .ok ⟨.answer, "v=0"⟩
  populateFromSDP := fun _ => .ok ()

/-- `Signaller.initialize`: if initiator, register default codecs; pre-add
a receive-only video transceiver, then a receive-only audio transceiver
(returning early on error); if initiator, call `negotiator.Negotiate()`.
Returns the result together with the ordered trace of collaborator calls. -/
def initSignaller (pb : PeerBehavior) (initiator : Bool) :
    Except String Unit × List SigAction :=
  let codecActs : List SigAction :=
    if initiator then [.registerDefaultCodecs] else []
  match pb.addTransceiverFromKind .video .recvonly with
  | .error e =>
    (.error ("Error pre-adding video transceiver: " ++ e),
      codecActs ++ [.addTransceiverFromKind .video .recvonly])
  | .ok _ =>
    match pb.addTransceiverFromKind .audio .recvonly with
    | .error e =>
      (.error ("Error pre-adding audio transceiver: " ++ e),
        codecActs ++ [.addTransceiverFromKind .video .recvonly,
                      .addTransceiverFromKind .audio .recvonly])
    | .ok _ =>
      (.ok (),
        codecActs ++ [.addTransceiverFromKind .video .recvonly,
                      .addTransceiverFromKind .audio .recvonly] ++
          (if initiator then [.negotiate] else []))

/-- `Signaller.handleRemoteOffer`: populate codecs from the SDP, set the
remote description, create an answer, set it as local description, then
emit the answer via `onSignal`; each failure returns the error and stops. -/
def handleRemoteOffer (pb : PeerBehavior) (localPeerID : String)
    (sd : SessionDescription) : Except String Unit × List SigAction :=
  match pb.populateFromSDP sd with
  | .error e =>
    (.error ("Error populating codec info from SDP: " ++ e), [.populateFromSDP sd])
  | .ok _ =>
    match pb.setRemoteDescription sd with
    | .error e =>
      (.error ("Error setting remote description: " ++ e),
        [.populateFromSDP sd, .setRemoteDescription sd])
    | .ok _ =>
      match pb.createAnswer with
      | .error e =>
        (.error ("Error creating answer: " ++ e),
          [.populateFromSDP sd, .setRemoteDescription sd, .createAnswer])
      | .ok answer =>
        match pb.setLocalDescription answer with
        | .error e =>
          (.error ("Error setting local description: " ++ e),
            [.populateFromSDP sd, .setRemoteDescription sd, .createAnswer,
             .setLocalDescription answer])
        | .ok _ =>
          (.ok (),
            [.populateFromSDP sd, .setRemoteDescription sd, .createAnswer,
             .setLocalDescription answer, .onSignal (.sdp localPeerID answer)])

/-- `Signaller.handleRemoteAnswer`: set the remote description. -/
def handleRemoteAnswer (pb : PeerBehavior) (sd : SessionDescription) :
    Except String Unit × List SigAction :=
  match pb.setRemoteDescription sd with
  | .error e =>
    (.error ("Error setting remote description: " ++ e), [.setRemoteDescription sd])
  | .ok _ => (.ok (), [.setRemoteDescription sd])

/-- `Signaller.handleRemoteSDP`: dispatch on the SDP type; anything other
than an offer or an answer is an unexpected-sdp-type error. -/
def handleRemoteSDP (pb : PeerBehavior) (localPeerID : String)
    (sd : SessionDescription) : Except String Unit × List SigAction :=
  match sd.sdpType with
  | .offer => handleRemoteOffer pb localPeerID sd
  | .answer => handleRemoteAnswer pb sd
  | _ => (.error "Unexpected sdp type", [])

/-- The result of decoding an inbound payload (`NewPayloadFromMap`): one of
the four signal variants the dispatch switch of `Signaller.Signal` names,
or a decode error. The decoder itself is not under `src/`; its outcome is
the abstract input of the dispatch. -/
inductive DecodedSignal where
  | candidate (c : ICECandidateInit) : DecodedSignal
  | renegotiate : DecodedSignal
  | transceiverRequest (kind : CodecType) : DecodedSignal
  | sessionDescription (sd : SessionDescription) : DecodedSignal
  deriving Repr, DecidableEq

/-- `Signaller.Signal`: on a decode error, fail without touching any
collaborator; otherwise dispatch on the decoded variant exactly as the
source's type switch does. -/
def signal (pb : PeerBehavior) (localPeerID : String)
    (decoded : Except String DecodedSignal) : Except String Unit × List SigAction :=
  match decoded with
  | .error e => (.error ("Error constructing signal from payload: " ++ e), [])
  | .ok (.candidate c) => (pb.addICECandidate c, [.addICECandidate c])
  | .ok .renegotiate => (.ok (), [.negotiate])
  | .ok (.transceiverRequest kind) =>
    (.ok (), [.negotiatorAddTransceiverFromKind kind .sendrecv])
  | .ok (.sessionDescription sd) => handleRemoteSDP pb localPeerID sd

/-- `Signaller.SendTransceiverRequest`: only a non-initiator emits the
transceiver-request payload. -/
def sendTransceiverRequest (initiator : Bool) (localPeerID : String)
    (kind : CodecType) (direction : TransceiverDirection) : List SigAction :=
  if initiator then []
  else [.onSignal (.transceiverRequest localPeerID kind direction)]

/-- The answer `CreateAnswer` yields, defaulted for a failing peer. -/
def answerOf (pb : PeerBehavior) : SessionDescription :=
  match pb.createAnswer with
  | .ok a => a
  | .error _ => ⟨.answer, ""⟩

/-- The complete call sequence of a successful remote-offer handling. -/
def fullOfferTrace (pb : PeerBehavior) (localPeerID : String)
    (sd : SessionDescription) : List SigAction :=
  [.populateFromSDP sd, .setRemoteDescription sd, .createAnswer,
   .setLocalDescription (answerOf pb), .onSignal (.sdp localPeerID (answerOf pb))]

/-- The close-relevant state of a signaller: the `sync.Once` latch, the
number of `peerConnection.Close()` calls made, and whether `closeChannel`
has been closed. -/
structure CloseState where
  closedLatch : Bool
  peerCloseCount : Nat
  channelClosed : Bool
  deriving Repr, DecidableEq

/-- A freshly constructed signaller: latch unused, no peer close, channel open. -/
def initialCloseState : CloseState := ⟨false, 0, false⟩

/-- `Signaller.Close`: under `closeOnce.Do`, close the peer connection and
close the close channel; a consumed latch makes the call a no-op. -/
def closeSignaller (s : CloseState) : CloseState :=
  if s.closedLatch then s
  else ⟨true, s.peerCloseCount + 1, true⟩

/-- `Signaller.handleICEConnectionStateChange`: on `closed`, `disconnected`
or `failed`, call `Close`; otherwise leave the state alone. -/
def handleICEConnectionStateChange (st : ICEConnectionState) (s : CloseState) :
    CloseState :=
  if st = .closed ∨ st = .disconnected ∨ st = .failed then closeSignaller s else s

/-- A close-path invocation: a direct `Close()` or an ICE-connection-state
callback. -/
inductive CloseOp where
  | close : CloseOp
  | iceChange (st : ICEConnectionState) : CloseOp
  deriving Repr, DecidableEq

def applyCloseOp (s : CloseState) : CloseOp → CloseState
  | .close => closeSignaller s
  | .iceChange st => handleICEConnectionStateChange st s

/-- Run a sequence of close-path invocations from the fresh state. -/
def runCloseOps (ops : List CloseOp) : CloseState :=
  ops.foldl applyCloseOp initialCloseState

/-- The latch invariant: the peer connection has been closed exactly when
the latch is consumed, and the close channel fires with the latch. -/
def closeInv (s : CloseState) : Prop :=
  s.peerCloseCount = (if s.closedLatch then 1 else 0) ∧ s.channelClosed = s.closedLatch

end Signals

namespace Wshandler

/-- Strip trailing `/` characters (the first loop of Go `path.Base`). -/
def stripTrailingSlashes (p : List Char) : List Char :=
  (p.reverse.dropWhile (fun c => c = '/')).reverse

/-- The suffix after the last `/`, or the whole list if there is none
(`path[i+1:]` for `i` the last index of `/`). -/
def afterLastSlash (p : List Char) : List Char :=
  (p.reverse.takeWhile (fun c => c ≠ '/')).reverse

/-- Go `path.Base`: empty path gives `"."`; otherwise trailing slashes are
stripped and the part after the last slash is returned; a path of slashes
only gives `"/"`. -/
def goPathBase (p : List Char) : List Char :=
  if p = [] then ['.']
  else if afterLastSlash (stripTrailingSlashes p) = [] then ['/']
  else afterLastSlash (stripTrailingSlashes p)

/-- The `dir` part of Go `path.Split`: everything up to and including the
last `/` (empty if the path has no slash). -/
def splitDir (p : List Char) : List Char :=
  (p.reverse.dropWhile (fun c => c ≠ '/')).reverse

/-- Split on `/`; adjacent separators yield empty segments, as Go's lexical
path element scan does. -/
def splitOnSlash : List Char → List (List Char)
  | [] => [[]]
  | c :: rest =>
    let r := splitOnSlash rest
    if c = '/' then [] :: r
    else
      match r with
      | [] => [[c]]
      | g :: gs => (c :: g) :: gs

/-- One iteration of the element-processing loop of Go `path.Clean`, on a
stack of emitted components (held in reverse order): empty and `.`
components are dropped; `..` pops a non-`..` top, is dropped at the root
when nothing is left to pop, and is kept in a relative path; any other
component is pushed. -/
def cleanStep (rooted : Bool) (stack : List (List Char)) (c : List Char) :
    List (List Char) :=
  if c = [] ∨ c = ['.'] then stack
  else if c = ['.', '.'] then
    match stack with
    | top :: rest =>
      if top = ['.', '.'] then
        if rooted then top :: rest else ['.', '.'] :: top :: rest
      else rest
    | [] => if rooted then [] else [['.', '.']]
  else c :: stack

/-- The element-processing loop of Go `path.Clean`: fold `cleanStep` over
the path components. -/
def cleanStack (rooted : Bool) (stack comps : List (List Char)) : List (List Char) :=
  comps.foldl (cleanStep rooted) stack

/-- Join components with `/` separators. -/
def joinSlash : List (List Char) → List Char
  | [] => []
  | [c] => c
  | c :: cs => c ++ '/' :: joinSlash cs

/-- Whether the path starts with `/` (`rooted` in Go `path.Clean`). -/
def isRooted (p : List Char) : Bool := p.head? = some '/'

/-- Go `path.Clean` (lexical cleaning): empty gives `"."`; otherwise the
component stack machine runs over the split path, and the result is
re-joined, rooted with a leading `/` when the input was; an empty result is
`"/"` when rooted and `"."` otherwise. -/
def goPathClean (p : List Char) : List Char :=
  if p = [] then ['.']
  else if (cleanStack (isRooted p) [] (splitOnSlash p)).reverse = [] then
    (if isRooted p then ['/'] else ['.'])
  else
    (if isRooted p then ['/'] else [])
      ++ joinSlash (cleanStack (isRooted p) [] (splitOnSlash p)).reverse

/-- Go `path.Dir`: the `dir` part of `Split`, cleaned. -/
def goPathDir (p : List Char) : List Char :=
  goPathClean (splitDir p)

/-- `websocket.StatusInternalError`. -/
def StatusInternalError : Int := 1011

/-- `websocket.StatusNormalClosure`. -/
def StatusNormalClosure : Int := 1000

/-- `websocket.StatusGoingAway`. -/
def StatusGoingAway : Int := 1001

/-- A non-nil error returned by `client.Subscribe`, as the two tests applied
to it see it: whether `errors.Is(err, context.Canceled)` holds, and the
close status `websocket.CloseStatus(err)` (which is `-1` when the error
carries no close status). -/
structure SubErr where
  isCanceled : Bool
  closeStatus : Int
  deriving Repr, DecidableEq

/-- `errors.Is(err, context.Canceled)`; `nil` is not the cancellation error. -/
def errorsIsCanceled : Option SubErr → Bool
  | none => false
  | some e => e.isCanceled

/-- `websocket.CloseStatus(err)`; `-1` for `nil` and non-close errors. -/
def closeStatus : Option SubErr → Int
  | none => -1
  | some e => e.closeStatus

/-- One observable effect of `HandleRoomWithCleanup`. Room, client id and
message payloads are character lists. -/
inductive Event where
  | enterCalled (room : List Char) : Event
  | addCalled (clientID : List Char) : Event
  | logAddError : Event
  | handleMessage (clientID room msg : List Char) : Event
  | logSubscriptionError : Event
  | removeCalled (clientID : List Char) : Event
  | cleanupCalled (clientID room : List Char) : Event
  | exitCalled (room : List Char) : Event
  | clientClosed : Event
  | socketClosed (status : Int) : Event
  deriving Repr, DecidableEq

/-- The events the error checks after `client.Subscribe` produce: a
context-cancelled error and the normal-closure and going-away statuses
return silently; any other non-nil error is logged. -/
def subscribeLogEvents (err : Option SubErr) : List Event :=
  if errorsIsCanceled err then []
  else if closeStatus err = StatusNormalClosure ∨ closeStatus err = StatusGoingAway then []
  else if err ≠ none then [.logSubscriptionError]
  else []

/-- Run a stack of deferred effect lists: Go defers execute in reverse
registration order, and the stack is built by pushing each newly registered
defer onto the front, so execution is front-to-back. -/
def runDefers (stack : List (List Event)) : List Event :=
  stack.flatten

/-- `WSS.HandleRoomWithCleanup` as an effect trace. Inputs: whether the
websocket accept succeeds; the request URL path; whether `adapter.Add`
fails; whether a cleanup callback was supplied; the messages the
subscription delivers to the handler; and the error `Subscribe` returns.
Deferred effects are pushed onto a defer stack in registration order and
run via `runDefers` on return. -/
def handleRoomWithCleanup (acceptOk : Bool) (urlPath : List Char)
    (addFails : Bool) (hasCleanup : Bool) (msgs : List (List Char))
    (subErr : Option SubErr) : List Event :=
  if acceptOk = false then []
  else
    let clientID := goPathBase urlPath
    let room := goPathBase (goPathDir urlPath)
    let defers1 : List (List Event) := [[.socketClosed StatusInternalError]]
    let defers2 : List (List Event) := [.clientClosed] :: defers1
    let defers3 : List (List Event) := [.exitCalled room] :: defers2
    if addFails then
      [.enterCalled room, .addCalled clientID, .logAddError] ++ runDefers defers3
    else
      let defers4 : List (List Event) :=
        if hasCleanup then [.cleanupCalled clientID room] :: defers3 else defers3
      let defers5 : List (List Event) := [.removeCalled clientID] :: defers4
      [.enterCalled room, .addCalled clientID] ++
        msgs.map (fun m => .handleMessage clientID room m) ++
        subscribeLogEvents subErr ++
        runDefers defers5

/-- Teardown effects named by the teardown-ordering claims. -/
def isTeardownEvent : Event → Bool
  | .removeCalled _ => true
  | .cleanupCalled _ _ => true
  | .exitCalled _ => true
  | .clientClosed => true
  | .socketClosed _ => true
  | _ => false

/-- `isSubseqOf l₁ l₂` holds when `l₁` occurs inside `l₂` in order (a
subsequence check). -/
def isSubseqOf [DecidableEq α] : List α → List α → Bool
  | [], _ => true
  | _ :: _, [] => false
  | a :: as, b :: bs => if a = b then isSubseqOf as bs else isSubseqOf (a :: as) bs

end Wshandler

namespace Signals

theorem closeSignaller_idem (s : CloseState) :
    closeSignaller (closeSignaller s) = closeSignaller s := by
  unfold closeSignaller
  by_cases h : s.closedLatch <;> simp [h]

theorem applyCloseOp_inv (s : CloseState) (op : CloseOp) (h : closeInv s) :
    closeInv (applyCloseOp s op) := by
  have hclose : closeInv (closeSignaller s) := by
    unfold closeSignaller closeInv at *
    by_cases hl : s.closedLatch <;> simp [hl] at h ⊢ <;> simp [h]
  cases op with
  | close => exact hclose
  | iceChange st =>
    simp only [applyCloseOp, handleICEConnectionStateChange]
    by_cases hc : st = .closed ∨ st = .disconnected ∨ st = .failed
    · rw [if_pos hc]; exact hclose
    · rw [if_neg hc]; exact h

theorem foldl_closeInv (ops : List CloseOp) :
    ∀ s : CloseState, closeInv s → closeInv (ops.foldl applyCloseOp s) := by
  induction ops with
  | nil => intro s h; exact h
  | cons op rest ih =>
    intro s h
    exact ih (applyCloseOp s op) (applyCloseOp_inv s op h)

theorem runCloseOps_inv (ops : List CloseOp) : closeInv (runCloseOps ops) :=
  foldl_closeInv ops initialCloseState (by constructor <;> rfl)

theorem replicate_close_foldl (n : Nat) (hn : 1 ≤ n) (s : CloseState) :
    (List.replicate n CloseOp.close).foldl applyCloseOp s = closeSignaller s := by
  induction n generalizing s with
  | zero => omega
  | succ m ih =>
    rw [List.replicate_succ, List.foldl_cons]
    rcases Nat.eq_zero_or_pos m with hm | hm
    · subst hm; rfl
    · rw [ih hm (applyCloseOp s .close)]
      exact closeSignaller_idem s

end Signals

namespace Wshandler

theorem dropWhile_append_of_all (p : α → Bool) (l r : List α)
    (h : ∀ a ∈ l, p a = true) :
    List.dropWhile p (l ++ r) = List.dropWhile p r := by
  induction l with
  | nil => rfl
  | cons a t ih =>
    rw [List.cons_append, List.dropWhile_cons, h a (List.mem_cons_self a t)]
    exact ih fun b hb => h b (List.mem_cons_of_mem a hb)

theorem takeWhile_append_of_all (p : α → Bool) (l r : List α) (x : α)
    (hl : ∀ a ∈ l, p a = true) (hx : p x = false) :
    List.takeWhile p (l ++ x :: r) = l := by
  induction l with
  | nil =>
    rw [List.nil_append, List.takeWhile_cons, hx]
    simp
  | cons a t ih =>
    rw [List.cons_append, List.takeWhile_cons, hl a (List.mem_cons_self a t)]
    rw [ih fun b hb => hl b (List.mem_cons_of_mem a hb)]
    simp

theorem stripTrailingSlashes_append (xs seg : List Char)
    (h0 : seg ≠ []) (h1 : ('/' : Char) ∉ seg) :
    stripTrailingSlashes (xs ++ seg) = xs ++ seg := by
  unfold stripTrailingSlashes
  obtain ⟨c, t, hct⟩ := List.exists_cons_of_ne_nil (by simpa using h0 : seg.reverse ≠ [])
  have hcmem : c ∈ seg := by
    rw [← List.mem_reverse, hct]
    exact List.mem_cons_self c t
  have hcne : (decide (c = '/')) = false := by
    simp only [decide_eq_false_iff_not]
    exact fun hh => h1 (hh ▸ hcmem)
  rw [List.reverse_append, hct, List.cons_append, List.dropWhile_cons, hcne]
  rw [if_neg (by simp), ← List.cons_append, ← hct, ← List.reverse_append,
    List.reverse_reverse]

theorem afterLastSlash_append (xs seg : List Char) (h1 : ('/' : Char) ∉ seg) :
    afterLastSlash (xs ++ '/' :: seg) = seg := by
  unfold afterLastSlash
  rw [List.reverse_append, List.reverse_cons, List.append_assoc, List.singleton_append]
  rw [takeWhile_append_of_all _ seg.reverse xs.reverse '/'
    (fun a ha => by
      simp only [decide_eq_true_eq]
      exact fun hh => h1 (hh ▸ List.mem_reverse.mp ha))
    (by simp)]
  exact List.reverse_reverse seg

theorem goPathBase_append (xs seg : List Char)
    (h0 : seg ≠ []) (h1 : ('/' : Char) ∉ seg) :
    goPathBase (xs ++ '/' :: seg) = seg := by
  unfold goPathBase
  have hs : stripTrailingSlashes (xs ++ '/' :: seg) = xs ++ '/' :: seg := by
    have := stripTrailingSlashes_append (xs ++ ['/']) seg h0 h1
    simpa using this
  rw [if_neg (by simp), hs, afterLastSlash_append xs seg h1, if_neg h0]

theorem splitDir_append (xs seg : List Char) (h1 : ('/' : Char) ∉ seg) :
    splitDir (xs ++ '/' :: seg) = xs ++ ['/'] := by
  unfold splitDir
  rw [List.reverse_append, List.reverse_cons, List.append_assoc, List.singleton_append]
  rw [dropWhile_append_of_all _ seg.reverse ('/' :: xs.reverse)
    (fun a ha => by
      simp only [decide_eq_true_eq]
      exact fun hh => h1 (hh ▸ List.mem_reverse.mp ha))]
  rw [List.dropWhile_cons]
  simp

theorem splitOnSlash_cons (c : Char) (rest : List Char) :
    splitOnSlash (c :: rest)
      = if c = '/' then [] :: splitOnSlash rest
        else
          match splitOnSlash rest with
          | [] => [[c]]
          | g :: gs => (c :: g) :: gs := rfl

theorem splitOnSlash_append (seg rest : List Char) (h : ('/' : Char) ∉ seg) :
    splitOnSlash (seg ++ '/' :: rest) = seg :: splitOnSlash rest := by
  induction seg with
  | nil => simp [splitOnSlash_cons]
  | cons c t ih =>
    have hc : ¬(c = '/') := fun hh => h (by simp [hh])
    have ht : ('/' : Char) ∉ t := fun hm => h (List.mem_cons_of_mem c hm)
    rw [List.cons_append, splitOnSlash_cons, if_neg hc, ih ht]

theorem cleanStack_cons_skip (rooted : Bool) (stack cs : List (List Char))
    (c : List Char) (h : c = [] ∨ c = ['.']) :
    cleanStack rooted stack (c :: cs) = cleanStack rooted stack cs := by
  have hstep : cleanStep rooted stack c = stack := by
    unfold cleanStep
    rw [if_pos h]
  unfold cleanStack
  rw [List.foldl_cons, hstep]

theorem cleanStack_cons_push (rooted : Bool) (stack cs : List (List Char))
    (c : List Char) (h0 : c ≠ []) (h1 : c ≠ ['.']) (h2 : c ≠ ['.', '.']) :
    cleanStack rooted stack (c :: cs) = cleanStack rooted (c :: stack) cs := by
  have hstep : cleanStep rooted stack c = c :: stack := by
    unfold cleanStep
    rw [if_neg (fun h => h.elim h0 h1), if_neg h2]
  unfold cleanStack
  rw [List.foldl_cons, hstep]

theorem goPathClean_ws_room (room : List Char) (hr0 : room ≠ [])
    (hr1 : ('/' : Char) ∉ room) (hr2 : room ≠ ['.']) (hr3 : room ≠ ['.', '.']) :
    goPathClean ('/' :: 'w' :: 's' :: '/' :: (room ++ ['/']))
      = '/' :: 'w' :: 's' :: '/' :: room := by
  have hstack : cleanStack true [] [[], ['w', 's'], room, []] = [room, ['w', 's']] := by
    rw [cleanStack_cons_skip true [] _ [] (Or.inl rfl)]
    rw [cleanStack_cons_push true [] _ ['w', 's'] (by simp) (by decide) (by decide)]
    rw [cleanStack_cons_push true [['w', 's']] _ room hr0 hr2 hr3]
    rw [cleanStack_cons_skip true _ _ [] (Or.inl rfl)]
    rfl
  have hsplit : splitOnSlash ('w' :: 's' :: '/' :: (room ++ ['/']))
      = ['w', 's'] :: splitOnSlash (room ++ ['/']) := by
    have := splitOnSlash_append ['w', 's'] (room ++ ['/']) (by decide)
    simpa using this
  have hsp : splitOnSlash ('/' :: 'w' :: 's' :: '/' :: (room ++ ['/']))
      = [[], ['w', 's'], room, []] := by
    rw [splitOnSlash_cons, if_pos rfl, hsplit,
      show room ++ ['/'] = room ++ '/' :: [] from rfl,
      splitOnSlash_append room [] hr1]
    rfl
  have hrooted : isRooted ('/' :: 'w' :: 's' :: '/' :: (room ++ ['/'])) = true := rfl
  unfold goPathClean
  rw [if_neg (by simp), hrooted, hsp, hstack]
  rw [if_neg (by simp)]
  simp [joinSlash]

theorem subscribeLogEvents_mem (err : Option SubErr) (e : Event)
    (h : e ∈ subscribeLogEvents err) : e = .logSubscriptionError := by
  unfold subscribeLogEvents at h
  split at h
  · exact absurd h (List.not_mem_nil e)
  · split at h
    · exact absurd h (List.not_mem_nil e)
    · split at h
      · simpa using h
      · exact absurd h (List.not_mem_nil e)

theorem mem_subscribeLogEvents_iff (err : Option SubErr) :
    Event.logSubscriptionError ∈ subscribeLogEvents err
      ↔ (err ≠ none ∧ errorsIsCanceled err = false
          ∧ closeStatus err ≠ StatusNormalClosure ∧ closeStatus err ≠ StatusGoingAway) := by
  unfold subscribeLogEvents
  by_cases h1 : errorsIsCanceled err = true
  · simp [h1]
  · rw [if_neg (by simp [h1])]
    by_cases h2 : closeStatus err = StatusNormalClosure ∨ closeStatus err = StatusGoingAway
    · rw [if_pos h2]
      rcases h2 with h2 | h2 <;> simp [h2]
    · rw [if_neg h2]
      push_neg at h2
      by_cases h3 : err = none
      · subst h3
        simp
      · rw [if_pos h3]
        simp only [Bool.not_eq_true] at h1
        simp [h1, h2.1, h2.2, h3]

end Wshandler

namespace Claims

open Wsmessage Signals Wshandler

/-- C2: serializing any message and deserializing the result returns the
message unchanged, for arbitrary JSON-representable payloads; in
particular this holds for the messages built by the constructors
`NewMessage`, `NewMessageRoomJoin` and `NewMessageRoomLeave`. -/
theorem serialize_deserialize_roundtrip :
    (∀ m : Message, Deserialize (Serialize m) = .ok m)
    ∧ (∀ typ room payload, Deserialize (Serialize (NewMessage typ room payload))
        = .ok (NewMessage typ room payload))
    ∧ (∀ room clientID metadata,
        Deserialize (Serialize (NewMessageRoomJoin room clientID metadata))
          = .ok (NewMessageRoomJoin room clientID metadata))
    ∧ (∀ room clientID, Deserialize (Serialize (NewMessageRoomLeave room clientID))
        = .ok (NewMessageRoomLeave room clientID)) :=
  ⟨fun _ => rfl, fun _ _ _ => rfl, fun _ _ _ => rfl, fun _ _ => rfl⟩

/-- C3: `Signaller.Close` is idempotent. Along any sequence of close-path
invocations (direct `Close` calls and ICE-connection-state callbacks) the
peer connection is closed at most once and the close channel fires exactly
when the latch does; appending any positive number of further `Close`
calls yields the same state as a single `Close`; and the ICE callback on a
`closed`, `disconnected` or `failed` state is exactly `Close`. -/
theorem close_idempotent (ops : List CloseOp) (n : Nat)
    (st : ICEConnectionState) (s : CloseState) (hn : 1 ≤ n)
    (hst : st = .closed ∨ st = .disconnected ∨ st = .failed) :
    (runCloseOps ops).peerCloseCount ≤ 1
    ∧ ((runCloseOps ops).channelClosed = true → (runCloseOps ops).peerCloseCount = 1)
    ∧ runCloseOps (ops ++ List.replicate n .close) = closeSignaller (runCloseOps ops)
    ∧ handleICEConnectionStateChange st s = closeSignaller s := by
  obtain ⟨hcount, hchan⟩ := runCloseOps_inv ops
  refine ⟨?_, ?_, ?_, ?_⟩
  · rw [hcount]; split <;> omega
  · intro h
    rw [hcount]
    rw [hchan] at h
    simp [h]
  · unfold runCloseOps
    rw [List.foldl_append]
    exact replicate_close_foldl n hn _
  · unfold handleICEConnectionStateChange
    rcases hst with h | h | h <;> simp [h]

/-- C3 witness: two closes (one via a `disconnected` ICE callback) from the
fresh state close the peer exactly once and collapse to a single close. -/
theorem close_idempotent_witness :
    1 ≤ 2
    ∧ ((runCloseOps [.close, .iceChange .disconnected]).peerCloseCount ≤ 1
      ∧ ((runCloseOps [.close, .iceChange .disconnected]).channelClosed = true →
          (runCloseOps [.close, .iceChange .disconnected]).peerCloseCount = 1)
      ∧ runCloseOps ([.close, .iceChange .disconnected] ++ List.replicate 2 .close)
          = closeSignaller (runCloseOps [.close, .iceChange .disconnected])
      ∧ handleICEConnectionStateChange .disconnected initialCloseState
          = closeSignaller initialCloseState) :=
  ⟨by decide,
   close_idempotent [.close, .iceChange .disconnected] 2 .disconnected
     initialCloseState (by decide) (by simp)⟩

/-- C4: `Signaller.Signal` fails and calls no collaborator when the payload
does not decode, or decodes to a session description that is neither an
offer nor an answer; the known variants renegotiate and transceiver-request
both return nil (success). -/
theorem signal_unknown_rejected (pb : PeerBehavior) (localPeerID : String)
    (e : String) (sd : SessionDescription) (kind : CodecType)
    (hsd : sd.sdpType ≠ .offer ∧ sd.sdpType ≠ .answer) :
    ((∃ msg, (signal pb localPeerID (.error e)).1 = .error msg)
      ∧ (signal pb localPeerID (.error e)).2 = [])
    ∧ ((∃ msg, (signal pb localPeerID (.ok (.sessionDescription sd))).1 = .error msg)
      ∧ (signal pb localPeerID (.ok (.sessionDescription sd))).2 = [])
    ∧ (signal pb localPeerID (.ok .renegotiate)).1 = .ok ()
    ∧ (signal pb localPeerID (.ok (.transceiverRequest kind))).1 = .ok () := by
  obtain ⟨h1, h2⟩ := hsd
  refine ⟨⟨⟨_, rfl⟩, rfl⟩, ?_, rfl, rfl⟩
  rcases sd with ⟨ty, sdptext⟩
  cases ty with
  | offer => exact absurd rfl h1
  | answer => exact absurd rfl h2
  | pranswer => exact ⟨⟨_, rfl⟩, rfl⟩
  | rollback => exact ⟨⟨_, rfl⟩, rfl⟩

/-- C4 witness: a decode failure and a pranswer description are rejected
without collaborator calls; renegotiate and a video transceiver request
return nil. -/
theorem signal_unknown_rejected_witness :
    ((⟨.pranswer, "x"⟩ : SessionDescription).sdpType ≠ SDPType.offer
      ∧ (⟨.pranswer, "x"⟩ : SessionDescription).sdpType ≠ SDPType.answer)
    ∧ (((∃ msg, (signal pbOk "a" (.error "bad")).1 = .error msg)
        ∧ (signal pbOk "a" (.error "bad")).2 = [])
      ∧ ((∃ msg, (signal pbOk "a" (.ok (.sessionDescription ⟨.pranswer, "x"⟩))).1 = .error msg)
        ∧ (signal pbOk "a" (.ok (.sessionDescription ⟨.pranswer, "x"⟩))).2 = [])
      ∧ (signal pbOk "a" (.ok .renegotiate)).1 = .ok ()
      ∧ (signal pbOk "a" (.ok (.transceiverRequest .video))).1 = .ok ()) :=
  ⟨by decide,
   signal_unknown_rejected pbOk "a" "bad" ⟨.pranswer, "x"⟩ .video (by decide)⟩

/-- C5: handling a remote SDP offer performs a prefix of the sequence
populate-codecs, set-remote-description, create-answer,
set-local-description, emit-answer, and reaches the end of the sequence
(in particular the `onSignal` emission) exactly when it returns success;
a failing step ends the trace and yields the error. -/
theorem signal_offer_sequence (pb : PeerBehavior) (localPeerID : String)
    (sd : SessionDescription) (h : sd.sdpType = .offer) :
    ∃ k, k ≤ 5
      ∧ (signal pb localPeerID (.ok (.sessionDescription sd))).2
          = (fullOfferTrace pb localPeerID sd).take k
      ∧ (((signal pb localPeerID (.ok (.sessionDescription sd))).1 = .ok ()) ↔ k = 5) := by
  rcases sd with ⟨ty, sdptext⟩
  cases ty with
  | pranswer => simp at h
  | answer => simp at h
  | rollback => simp at h
  | offer => ?_
  simp only [signal, handleRemoteSDP, handleRemoteOffer, fullOfferTrace, answerOf]
  cases hp : pb.populateFromSDP ⟨.offer, sdptext⟩ with
  | error e => exact ⟨1, by omega, by simp [hp], by simp [hp]⟩
  | ok u =>
    cases hr : pb.setRemoteDescription ⟨.offer, sdptext⟩ with
    | error e => exact ⟨2, by omega, by simp [hp, hr], by simp [hp, hr]⟩
    | ok v =>
      cases hca : pb.createAnswer with
      | error e => exact ⟨3, by omega, by simp [hp, hr, hca], by simp [hp, hr, hca]⟩
      | ok answer =>
        cases hl : pb.setLocalDescription answer with
        | error e => exact ⟨4, by omega, by simp [hp, hr, hca, hl], by simp [hp, hr, hca, hl]⟩
        | ok w => exact ⟨5, by omega, by simp [hp, hr, hca, hl], by simp [hp, hr, hca, hl]⟩

/-- C5 witness: on an all-succeeding peer the offer handler runs the whole
five-step sequence and emits the answer. -/
theorem signal_offer_sequence_witness :
    (⟨.offer, "v=0"⟩ : SessionDescription).sdpType = SDPType.offer
    ∧ ∃ k, k ≤ 5
        ∧ (signal pbOk "a" (.ok (.sessionDescription ⟨.offer, "v=0"⟩))).2
            = (fullOfferTrace pbOk "a" ⟨.offer, "v=0"⟩).take k
        ∧ (((signal pbOk "a" (.ok (.sessionDescription ⟨.offer, "v=0"⟩))).1 = .ok ())
            ↔ k = 5) :=
  ⟨by decide, signal_offer_sequence pbOk "a" ⟨.offer, "v=0"⟩ (by decide)⟩

/-- C6: the signaller constructor registers default codecs iff it is the
initiator, then (for initiators and responders alike) pre-adds one
receive-only video transceiver followed by one receive-only audio
transceiver, and finally negotiates iff it is the initiator, provided the
two transceiver additions succeed. -/
theorem initSignaller_spec (pb : PeerBehavior) (initiator : Bool)
    (hv : pb.addTransceiverFromKind .video .recvonly = .ok ())
    (ha : pb.addTransceiverFromKind .audio .recvonly = .ok ()) :
    initSignaller pb initiator
      = (.ok (), (if initiator then [.registerDefaultCodecs] else [])
          ++ [.addTransceiverFromKind .video .recvonly,
              .addTransceiverFromKind .audio .recvonly]
          ++ (if initiator then [.negotiate] else []))
    ∧ (SigAction.registerDefaultCodecs ∈ (initSignaller pb initiator).2 ↔ initiator = true)
    ∧ (SigAction.negotiate ∈ (initSignaller pb initiator).2 ↔ initiator = true) := by
  have heq : initSignaller pb initiator
      = (.ok (), (if initiator then [.registerDefaultCodecs] else [])
          ++ [.addTransceiverFromKind .video .recvonly,
              .addTransceiverFromKind .audio .recvonly]
          ++ (if initiator then [.negotiate] else [])) := by
    simp only [initSignaller, hv, ha]
  refine ⟨heq, ?_, ?_⟩ <;> rw [heq] <;> cases initiator <;> simp

/-- C6 witness: an initiator on an all-succeeding peer registers codecs,
adds the video then the audio receive-only transceiver, and negotiates. -/
theorem initSignaller_spec_witness :
    pbOk.addTransceiverFromKind .video .recvonly = .ok ()
    ∧ pbOk.addTransceiverFromKind .audio .recvonly = .ok ()
    ∧ (initSignaller pbOk true
        = (.ok (), (if true then [.registerDefaultCodecs] else [])
            ++ [.addTransceiverFromKind .video .recvonly,
                .addTransceiverFromKind .audio .recvonly]
            ++ (if true then [.negotiate] else []))
      ∧ (SigAction.registerDefaultCodecs ∈ (initSignaller pbOk true).2 ↔ true = true)
      ∧ (SigAction.negotiate ∈ (initSignaller pbOk true).2 ↔ true = true)) :=
  ⟨rfl, rfl, initSignaller_spec pbOk true rfl rfl⟩

/-- C9: `SendTransceiverRequest` emits exactly one transceiver-request
payload via `onSignal` when the signaller is a responder, and emits
nothing when it is the initiator. -/
theorem sendTransceiverRequest_responder_only (localPeerID : String)
    (kind : CodecType) (direction : TransceiverDirection) :
    sendTransceiverRequest false localPeerID kind direction
      = [.onSignal (.transceiverRequest localPeerID kind direction)]
    ∧ sendTransceiverRequest true localPeerID kind direction = [] := by
  constructor <;> rfl

/-- C8: for a request URL of the layout `/ws/<room>/<clientID>` (segments
nonempty, slash-free, and the room not a `.` or `..` pseudo-segment), the
handler's `path.Base` of the URL path is the clientID and the `path.Base`
of the `path.Dir` of the URL path is the room — the last segment and its
parent. -/
theorem url_room_client_parsing (room clientID : List Char)
    (hr0 : room ≠ []) (hr1 : ('/' : Char) ∉ room) (hr2 : room ≠ ['.'])
    (hr3 : room ≠ ['.', '.'])
    (hc0 : clientID ≠ []) (hc1 : ('/' : Char) ∉ clientID) :
    goPathBase ('/' :: 'w' :: 's' :: '/' :: (room ++ '/' :: clientID)) = clientID
    ∧ goPathBase (goPathDir ('/' :: 'w' :: 's' :: '/' :: (room ++ '/' :: clientID)))
        = room := by
  have hp : ('/' :: 'w' :: 's' :: '/' :: (room ++ '/' :: clientID))
      = (('/' :: 'w' :: 's' :: '/' :: room) ++ '/' :: clientID) := by simp
  constructor
  · rw [hp]
    exact goPathBase_append _ clientID hc0 hc1
  · have hdir : goPathDir ('/' :: 'w' :: 's' :: '/' :: (room ++ '/' :: clientID))
        = '/' :: 'w' :: 's' :: '/' :: room := by
      unfold goPathDir
      rw [hp, splitDir_append _ clientID hc1]
      rw [show ('/' :: 'w' :: 's' :: '/' :: room) ++ ['/']
        = '/' :: 'w' :: 's' :: '/' :: (room ++ ['/']) from by simp]
      exact goPathClean_ws_room room hr0 hr1 hr2 hr3
    rw [hdir, show ('/' :: 'w' :: 's' :: '/' :: room)
      = ['/', 'w', 's'] ++ '/' :: room from rfl]
    exact goPathBase_append ['/', 'w', 's'] room hr0 hr1

/-- C8 witness: `/ws/r/c` parses to room `r` and clientID `c`. -/
theorem url_room_client_parsing_witness :
    ((['r'] : List Char) ≠ [] ∧ ('/' : Char) ∉ (['r'] : List Char)
      ∧ (['r'] : List Char) ≠ ['.'] ∧ (['r'] : List Char) ≠ ['.', '.']
      ∧ (['c'] : List Char) ≠ [] ∧ ('/' : Char) ∉ (['c'] : List Char))
    ∧ (goPathBase ('/' :: 'w' :: 's' :: '/' :: ((['r'] : List Char) ++ '/' :: ['c']))
        = ['c']
      ∧ goPathBase (goPathDir
          ('/' :: 'w' :: 's' :: '/' :: ((['r'] : List Char) ++ '/' :: ['c'])))
        = ['r']) :=
  ⟨by decide,
   url_room_client_parsing ['r'] ['c'] (by decide) (by decide) (by decide)
     (by decide) (by decide) (by decide)⟩

/-- C1 counterexample: on the exit path of a successful `adapter.Add` with a
cleanup callback (URL `/ws/r/c`, no messages, nil subscribe error), the
trace runs `adapter.Remove` BEFORE the cleanup callback — the claimed order
cleanup-then-Remove-then-Exit-then-client-then-socket is not a subsequence
of the trace, although every one of those five events occurs in it. -/
theorem teardown_order_counterexample :
    handleRoomWithCleanup true ['/', 'w', 's', '/', 'r', '/', 'c'] false true [] none
      = [.enterCalled ['r'], .addCalled ['c'], .removeCalled ['c'],
         .cleanupCalled ['c'] ['r'], .exitCalled ['r'], .clientClosed,
         .socketClosed StatusInternalError]
    ∧ isSubseqOf
        [Event.cleanupCalled ['c'] ['r'], .removeCalled ['c'], .exitCalled ['r'],
         .clientClosed, .socketClosed StatusInternalError]
        (handleRoomWithCleanup true ['/', 'w', 's', '/', 'r', '/', 'c'] false true [] none)
      = false := by decide

/-- C1 (amended): on every exit path after a successful `adapter.Add` with a
cleanup callback supplied, the teardown effects occur in the exact order
`adapter.Remove(clientID)`, then the cleanup callback with
`(clientID, room)`, then `rooms.Exit(room)`, then the client is closed, then
the socket is closed with internal-error status — with no teardown effect
happening earlier in the trace. -/
theorem teardown_order_amended (urlPath : List Char) (msgs : List (List Char))
    (subErr : Option SubErr) :
    ∃ pre,
      handleRoomWithCleanup true urlPath false true msgs subErr
        = pre ++ [.removeCalled (goPathBase urlPath),
            .cleanupCalled (goPathBase urlPath) (goPathBase (goPathDir urlPath)),
            .exitCalled (goPathBase (goPathDir urlPath)),
            .clientClosed, .socketClosed StatusInternalError]
      ∧ ∀ e ∈ pre, isTeardownEvent e = false := by
  refine ⟨[.enterCalled (goPathBase (goPathDir urlPath)), .addCalled (goPathBase urlPath)]
      ++ msgs.map (fun m =>
          .handleMessage (goPathBase urlPath) (goPathBase (goPathDir urlPath)) m)
      ++ subscribeLogEvents subErr, ?_, ?_⟩
  · simp [handleRoomWithCleanup, runDefers]
  · intro e he
    rcases List.mem_append.mp he with h | h
    · rcases List.mem_append.mp h with h2 | h2
      · simp only [List.mem_cons, List.not_mem_nil, or_false] at h2
        rcases h2 with rfl | rfl <;> rfl
      · obtain ⟨m, _, rfl⟩ := List.mem_map.mp h2
        rfl
    · rw [subscribeLogEvents_mem subErr e h]
      rfl

/-- C7: the socket handler logs a subscription error exactly when the
`Subscribe` result is a non-nil error that is neither context-cancelled nor
a normal-closure nor a going-away close status. -/
theorem subscribe_error_logging (urlPath : List Char) (msgs : List (List Char))
    (subErr : Option SubErr) (hasCleanup : Bool) :
    Event.logSubscriptionError
        ∈ handleRoomWithCleanup true urlPath false hasCleanup msgs subErr
      ↔ (subErr ≠ none ∧ errorsIsCanceled subErr = false
          ∧ closeStatus subErr ≠ StatusNormalClosure
          ∧ closeStatus subErr ≠ StatusGoingAway) := by
  rw [← mem_subscribeLogEvents_iff]
  cases hasCleanup <;>
    simp [handleRoomWithCleanup, runDefers]

/-- C10: when `adapter.Add` fails, the handler neither invokes the cleanup
callback, nor `adapter.Remove`, nor the message handler, but it still calls
`rooms.Exit(room)`, closes the client and closes the socket with
internal-error status, in that order. -/
theorem add_failure_teardown (urlPath : List Char) (msgs : List (List Char))
    (subErr : Option SubErr) (hasCleanup : Bool) :
    handleRoomWithCleanup true urlPath true hasCleanup msgs subErr
      = [.enterCalled (goPathBase (goPathDir urlPath)),
         .addCalled (goPathBase urlPath), .logAddError,
         .exitCalled (goPathBase (goPathDir urlPath)), .clientClosed,
         .socketClosed StatusInternalError]
    ∧ (∀ c r, Event.cleanupCalled c r
        ∉ handleRoomWithCleanup true urlPath true hasCleanup msgs subErr)
    ∧ (∀ c, Event.removeCalled c
        ∉ handleRoomWithCleanup true urlPath true hasCleanup msgs subErr)
    ∧ (∀ c r m, Event.handleMessage c r m
        ∉ handleRoomWithCleanup true urlPath true hasCleanup msgs subErr) := by
  have heq : handleRoomWithCleanup true urlPath true hasCleanup msgs subErr
      = [.enterCalled (goPathBase (goPathDir urlPath)),
         .addCalled (goPathBase urlPath), .logAddError,
         .exitCalled (goPathBase (goPathDir urlPath)), .clientClosed,
         .socketClosed StatusInternalError] := by
    simp [handleRoomWithCleanup, runDefers]
  refine ⟨heq, ?_, ?_, ?_⟩
  · intro c r
    rw [heq]
    simp
  · intro c
    rw [heq]
    simp
  · intro c r m
    rw [heq]
    simp

end Claims
